import Mathlib

/-!
Verification development for the `app-service-aspire-eshop-agents` repository.

Two program parts are embedded:

* `src/phi-3-sidecar/model_api.py` — a FastAPI endpoint `POST /predict` that
  builds a fixed chat prompt from three request fields, tokenizes it, runs a
  token-by-token generation loop against an `onnxruntime_genai` model, and
  streams decoded text fragments back to the caller.
* `setup_agents.py` — a provisioning script that deletes all existing agents
  and then creates four named agents (three leaf specialists, then an
  orchestrator referencing their ids) against a cloud agent service.

Text is embedded as `List Char`.  Machine-level behavior of the external
libraries (the tokenizer/stream decoder, the model's next-token selection,
the cloud agent CRUD service, pydantic validation) is modelled abstractly by
parameters and small state machines, faithful to the call contracts the
Python code relies on; the Python control flow itself is translated directly.
-/

set_option autoImplicit false

namespace Eshop

/-- Convenience coercion from a string literal to our character-list text. -/
def strL (s : String) : List Char := s.data

/-! ## Prompt construction (`model_api.py`, lines 27–31)

The source:
```python
chat_template = '<|system|>\n...no more than three.<|end|>\n<|user|>\n{input} <|end|>\n<|assistant|>'
input = f"{data.user_message} Product: {data.product_name}. Description: {data.product_description}"
prompt = chat_template.format(input=input)
```
`str.format` with the single `{input}` placeholder substitutes the argument
for the first (and only) occurrence of the placeholder and touches nothing
else; `replaceFirst` is that substitution. -/

/-- Request body of `POST /predict` (`class InputData(BaseModel)`, lines 19–22). -/
structure InputData where
  user_message : List Char
  product_name : List Char
  product_description : List Char
deriving DecidableEq

/-- Chat template literal from line 28 of `model_api.py` (braces escaped). -/
def chat_template : List Char :=
  strL "<|system|>\nYou are an AI assistant that helps people find concise information about products. Keep your responses brief and focus on key points. Limit the number of product key features to no more than three.<|end|>\n<|user|>\n\x7binput\x7d <|end|>\n<|assistant|>"

/-- Placeholder token searched by `str.format`. -/
def inputPlaceholder : List Char := strL "\x7binput\x7d"

/-- Test whether `pat` occurs at the head of a character list. -/
def startsWith : List Char → List Char → Bool
  | [], _ => true
  | _ :: _, [] => false
  | p :: ps, c :: cs => p = c && startsWith ps cs

/-- Replace the first occurrence of `pat` by `repl` (semantics of
`str.format` on a template whose only brace pair is the placeholder). -/
def replaceFirst (pat repl : List Char) : List Char → List Char
  | [] => []
  | c :: cs =>
    if startsWith pat (c :: cs) then repl ++ (c :: cs).drop pat.length
    else c :: replaceFirst pat repl cs

/-- Line 30: the f-string building the single user-turn string. -/
def userInput (data : InputData) : List Char :=
  data.user_message ++ strL " Product: " ++ data.product_name ++
    strL ". Description: " ++ data.product_description

/-- Line 31: `prompt = chat_template.format(input=input)`. -/
def predictPrompt (data : InputData) : List Char :=
  replaceFirst inputPlaceholder (userInput data) chat_template

/-- Specification-side phrasing of the same prompt: the user-turn string
wrapped between the fixed head and tail of the chat template. -/
def promptSpec (data : InputData) : List Char :=
  strL "<|system|>\nYou are an AI assistant that helps people find concise information about products. Keep your responses brief and focus on key points. Limit the number of product key features to no more than three.<|end|>\n<|user|>\n" ++
    userInput data ++ strL " <|end|>\n<|assistant|>"

/-! ## The inference runtime (`onnxruntime_genai` call contract)

The sidecar delegates tokenization, next-token computation and incremental
decoding to `onnxruntime_genai`.  That library is modelled abstractly:

* `encode` is `tokenizer.encode`; an `Except.error e` models a raised
  exception carrying message `e` (`str(e)` in the handler).
* `logits` gives the model's score for each candidate next token given the
  accumulated context; greedy selection (`do_sample=False`) takes the
  argmax over the vocabulary `0, …, vocab-1`.
* `sampler` is the randomized selection path that would be used were
  sampling enabled; it consumes one random draw per step.
* `stepFails` models `compute_logits` / `generate_next_token` raising at a
  given context (a mid-stream runtime failure).
* `isEos` recognizes the end-of-sequence token, which makes
  `generator.is_done()` become true after that token is produced.
* `emit` is the tokenizer's decoding function: the full text decodable from
  a sequence of tokens fed so far.  A `TokenizerStream` is stateful: its
  state is the token sequence it has been fed, and feeding one more token
  returns exactly the text that became newly available (`streamDecode`). -/

/-- Abstract model of the loaded `onnxruntime_genai` model/tokenizer pair. -/
structure Runtime where
  encode : List Char → Except (List Char) (List Nat)
  logits : List Nat → Nat → Int
  vocab : Nat
  sampler : List Nat → Nat → Nat
  stepFails : List Nat → Bool
  isEos : Nat → Bool
  emit : List Nat → List Char

/-- Greedy argmax over token ids `0, …, n-1` (ties resolved to the lowest
id).  This is the `do_sample=False` next-token selection. -/
def argmaxBelow (f : Nat → Int) : Nat → Nat
  | 0 => 0
  | n + 1 =>
    let b := argmaxBelow f n
    if f b < f n then n else b

/-- Search options and seed tokens set on `og.GeneratorParams` (lines 35–38):
`max_length=300`, `do_sample=False`, `params.input_ids = input_tokens`. -/
structure GeneratorParams where
  max_length : Nat
  do_sample : Bool
  input_ids : List Nat

/-- Parameters exactly as `predict` configures them. -/
def predictParams (input_tokens : List Nat) : GeneratorParams :=
  ⟨300, false, input_tokens⟩

/-- Generation loop of `token_generator` (lines 45–49) at the token level:
starting from context `ctx`, repeat while `is_done()` is false (context
shorter than `max_length` and no EOS produced yet): compute logits (which
may raise, ending the stream), select the next token — greedy argmax when
`do_sample` is false, a random draw otherwise — and append it.  Returns the
list of generated tokens in order.  The `fuel` argument only drives the
structural recursion: each iteration grows the context by one token, so
`is_done` is reached at the latest after `max_length` iterations and the
caller's fuel of `max_length` is never the binding constraint
(`genLoop_fuel_irrel` below makes this precise). -/
def genLoop (rt : Runtime) (ps : GeneratorParams) (rng : Nat → Nat) :
    Nat → Nat → List Nat → List Nat
  | 0, _, _ => []
  | fuel + 1, step, ctx =>
    if ps.max_length ≤ ctx.length then []
    else if rt.stepFails ctx then []
    else
      let t := if ps.do_sample then rt.sampler ctx (rng step)
               else argmaxBelow (rt.logits ctx) rt.vocab
      if rt.isEos t then [t]
      else t :: genLoop rt ps rng fuel (step + 1) (ctx ++ [t])

/-- Run the generation loop the way `predict` does: seeded with the input
tokens, with fuel covering every iteration the `is_done` guard permits. -/
def runGenerator (rt : Runtime) (ps : GeneratorParams) (rng : Nat → Nat) : List Nat :=
  genLoop rt ps rng ps.max_length 0 ps.input_ids

/-- Feed one token to a `TokenizerStream` whose state is the token list fed
so far: the state grows by the token and the newly available text is
returned (`tokenizer_stream.decode(new_token)`). -/
def streamDecode (emit : List Nat → List Char) (st : List Nat) (t : Nat) :
    List Nat × List Char :=
  (st ++ [t], (emit (st ++ [t])).drop (emit st).length)

/-- Fragment production of `token_generator` (lines 43–52) over an already
generated token list: for each token the code calls the stream decoder
TWICE — `generated_text += tokenizer_stream.decode(new_token)` and then
`yield tokenizer_stream.decode(new_token)` — so each token is fed twice
into the shared stream; only the second result is yielded.  Returns the
final stream state and the yielded fragments. -/
def yieldAll (emit : List Nat → List Char) :
    List Nat → List Nat → List Nat × List (List Char)
  | st, [] => (st, [])
  | st, t :: ts =>
    let p1 := streamDecode emit st t
    let p2 := streamDecode emit p1.1 t
    let rest := yieldAll emit p2.1 ts
    (rest.1, p2.2 :: rest.2)

/-- Fragment production of a correct streaming loop that decodes each newly
generated token exactly once (what the specification describes). -/
def singleDecodeAll (emit : List Nat → List Char) :
    List Nat → List Nat → List Nat × List (List Char)
  | st, [] => (st, [])
  | st, t :: ts =>
    let p := streamDecode emit st t
    let rest := singleDecodeAll emit p.1 ts
    (rest.1, p.2 :: rest.2)

/-- Token sequence generated for one request: encode the prompt and run the
generation loop seeded with the input tokens.  (On an encode failure no
generation happens.) -/
def requestTokens (rt : Runtime) (rng : Nat → Nat) (data : InputData) : List Nat :=
  match rt.encode (predictPrompt data) with
  | .error _ => []
  | .ok input_tokens => runGenerator rt (predictParams input_tokens) rng

/-- Response of `POST /predict`: either an HTTP 200 streaming response whose
body is the fragment sequence, or an `HTTPException` (status, detail). -/
inductive PredictResponse where
  | streaming (fragments : List (List Char))
  | httpError (status : Nat) (detail : List Char)
deriving DecidableEq

/-- Handler `predict` (lines 24–56).  `streamState` is the state of the
module-level `tokenizer_stream` (line 16) — created once per process and
shared by every request; the handler threads it through and returns the
updated state together with the response.  An encode failure is caught by
the `except` block and becomes `HTTPException(status_code=500, detail=str(e))`
before any streaming begins. -/
def predict (rt : Runtime) (streamState : List Nat) (rng : Nat → Nat)
    (data : InputData) : PredictResponse × List Nat :=
  match rt.encode (predictPrompt data) with
  | .error e => (.httpError 500 e, streamState)
  | .ok input_tokens =>
    let ps := predictParams input_tokens
    let toks := runGenerator rt ps rng
    let r := yieldAll rt.emit streamState toks
    (.streaming r.2, r.1)

/-- Sequential processing of several requests by the service process: the
model, tokenizer and `tokenizer_stream` are module-level, so the stream
state produced by one request is the stream state seen by the next. -/
def runRequests (rt : Runtime) (rng : Nat → Nat) :
    List Nat → List InputData → List PredictResponse × List Nat
  | st, [] => ([], st)
  | st, d :: ds =>
    let r := predict rt st rng d
    let rest := runRequests rt rng r.2 ds
    (r.1 :: rest.1, rest.2)

/-- Number of body fragments carried by a response (an error response has
streamed no bytes). -/
def fragCount : PredictResponse → Nat
  | .streaming fr => fr.length
  | .httpError _ _ => 0

/-! ## Request validation (pydantic contract for `class InputData`) -/

/-- Minimal JSON value universe for request bodies. -/
inductive Json where
  | jstr (s : List Char)
  | jnum (n : Int)
  | jnull
deriving DecidableEq

/-- Look a field up in a JSON object (field list). -/
def lookupField (name : List Char) : List (List Char × Json) → Option Json
  | [] => none
  | f :: fs => if f.1 = name then some f.2 else lookupField name fs

/-- Modelled from the pydantic contract for `class InputData(BaseModel)`
(`model_api.py` lines 19–22): each of the three declared `str` fields must
be present and be a JSON string; a missing, null or non-string value is a
validation error; the empty string is an ordinary valid value. -/
def validateInputData (body : List (List Char × Json)) :
    Except (List Char) InputData :=
  match lookupField (strL "user_message") body,
        lookupField (strL "product_name") body,
        lookupField (strL "product_description") body with
  | some (.jstr u), some (.jstr p), some (.jstr d) => .ok ⟨u, p, d⟩
  | _, _, _ => .error (strL "validation error")

/-! ## Derived MCP server URL (`setup_agents.py`, lines 221–222)

```python
base_url = external_inventory_url.rstrip('/')
external_mcp_server_url = f"{base_url}/mcp" if not base_url.endswith('/mcp') else base_url
``` -/

/-- Python `s.rstrip('/')`: drop every trailing slash character. -/
def rstripSlash (s : List Char) : List Char :=
  (s.reverse.dropWhile (fun c => c == '/')).reverse

/-- Python `s.endswith(pat)`. -/
def endsWithL (s pat : List Char) : Bool :=
  startsWith pat.reverse s.reverse

/-- Literal `'/mcp'` from line 222. -/
def mcpSuffix : List Char := strL "/mcp"

/-- Lines 221–222: derive the MCP server URL from the inventory URL. -/
def external_mcp_server_url (external_inventory_url : List Char) : List Char :=
  let base_url := rstripSlash external_inventory_url
  if endsWithL base_url mcpSuffix then base_url else base_url ++ mcpSuffix

/-! ## Provisioning script (`setup_agents.py`) -/

/-- Agent resource held by the cloud agent service.  Only what the claims
speak about is modelled: the name, the connected-agent tool references
(ids of previously created agents) and the MCP tool's server URL if any. -/
structure Agent where
  id : Nat
  name : List Char
  connectedIds : List Nat
  mcpUrl : Option (List Char)
deriving DecidableEq

/-- State of the cloud agent service: the registered agents and a fresh-id
counter.  Modelled from the SDK contract `create_agent` / `delete_agent` /
`list_agents` that `setup_agents.py` programs against. -/
structure CloudState where
  agents : List Agent
  nextId : Nat
deriving DecidableEq

/-- Contract of `agents_client.create_agent`: register an agent under a
fresh id and return it. -/
def createAgent (s : CloudState) (name : List Char) (conn : List Nat)
    (mcp : Option (List Char)) : CloudState × Nat :=
  (⟨s.agents ++ [⟨s.nextId, name, conn, mcp⟩], s.nextId + 1⟩, s.nextId)

/-- Contract of `agents_client.delete_agent`. -/
def deleteAgent (s : CloudState) (id : Nat) : CloudState :=
  ⟨s.agents.filter (fun a => a.id != id), s.nextId⟩

/-- Which cloud/filesystem calls raise during one provisioning run. -/
structure CloudEnv where
  listFails : Bool
  deleteFails : Nat → Bool
  swaggerFails : Bool
  createFails : List Char → Bool

/-- Operations attempted against the cloud service, in order. -/
inductive Op where
  | deleteAttempt (id : Nat)
  | createAttempt (name : List Char)
deriving DecidableEq

/-- Agent display name from `get_agents_config` (line 116). -/
def cartName : List Char := strL "Cart Manager"

/-- Agent display name from `get_agents_config` (line 149). -/
def fashionName : List Char := strL "Fashion Advisor Agent"

/-- Agent display name from `get_agents_config` (line 167). -/
def moderatorName : List Char := strL "Content Moderator Agent"

/-- Agent display name from `get_agents_config` (line 61). -/
def mainName : List Char := strL "Fashion Store Main Agent"

/-- Cleanup pass of STEP 0 (lines 240–264): iterate over the snapshot of
listed agents; each deletion runs inside its own try/except, so a failing
deletion is logged and the loop continues with the remaining agents. -/
def cleanupPass (env : CloudEnv) (listed : List Agent) (s : CloudState) :
    List Op × CloudState :=
  match listed with
  | [] => ([], s)
  | a :: rest =>
    let s' := if env.deleteFails a.id then s else deleteAgent s a.id
    let r := cleanupPass env rest s'
    (Op.deleteAttempt a.id :: r.1, r.2)

/-- Ids collected into the `agent_ids` dict returned by a completed run. -/
structure AgentIds where
  main_orchestrator : Nat
  cart_manager : Nat
  fashion_advisor : Nat
  content_moderator : Nat
deriving DecidableEq

/-- Outcome of one run: early return because `EXTERNAL_INVENTORY_URL` is
unset/empty (line 215), an exception propagating out (`raise`), or normal
completion with the id dict. -/
inductive ProvisionResult where
  | skipped
  | failed (state : CloudState)
  | completed (state : CloudState) (ids : AgentIds)
deriving DecidableEq

/-- One guarded `create_agent` call; `none` models the call raising. -/
def tryCreate (env : CloudEnv) (s : CloudState) (name : List Char)
    (conn : List Nat) (mcp : Option (List Char)) : Option (CloudState × Nat) :=
  if env.createFails name then none else some (createAgent s name conn mcp)

/-- The `create_agents` routine (lines 207–383): bail out if the inventory
URL is missing; derive the MCP URL; best-effort cleanup of every listed
agent (a failing `list_agents` is caught and cleanup skipped, line 262);
load the swagger spec (a failure there propagates); then create the three
specialists in the fixed order cart → fashion → moderator and finally the
orchestrator whose connected-agent tools reference the three fresh ids —
the first creation failure raises and aborts everything after it.
The Op trace records every attempted cloud mutation in order. -/
def create_agents (env : CloudEnv) (s : CloudState)
    (external_inventory_url : List Char) : List Op × ProvisionResult :=
  if external_inventory_url = [] then ([], .skipped)
  else
    let su := external_mcp_server_url external_inventory_url
    let c := if env.listFails then ([], s) else cleanupPass env s.agents s
    if env.swaggerFails then (c.1, .failed c.2)
    else
      let tr1 := c.1 ++ [Op.createAttempt cartName]
      match tryCreate env c.2 cartName [] none with
      | none => (tr1, .failed c.2)
      | some (s1, cartId) =>
        let tr2 := tr1 ++ [Op.createAttempt fashionName]
        match tryCreate env s1 fashionName [] none with
        | none => (tr2, .failed s1)
        | some (s2, fashId) =>
          let tr3 := tr2 ++ [Op.createAttempt moderatorName]
          match tryCreate env s2 moderatorName [] none with
          | none => (tr3, .failed s2)
          | some (s3, modId) =>
            let tr4 := tr3 ++ [Op.createAttempt mainName]
            match tryCreate env s3 mainName [cartId, fashId, modId] (some su) with
            | none => (tr4, .failed s3)
            | some (s4, mainId) =>
              (tr4, .completed s4 ⟨mainId, cartId, fashId, modId⟩)

/-! ## Concrete instances used to evaluate the theorems -/

/-- Decoder instance whose emitted character for a token depends on how many
tokens the stream has already seen (a streaming decoder is stateful, so this
is a legitimate incremental decoder: the text emitted so far is a function
of the tokens fed so far, growing by one character per token). -/
def posEmit (ts : List Nat) : List Char :=
  ts.enum.map fun p => Char.ofNat (97 + (p.2 + p.1) % 26)

/-- Decoder instance with multi-token characters: each pair of consecutive
tokens decodes to one character (as with UTF-8 bytes split across tokens);
an unpaired trailing token is held in the stream, emitting nothing yet. -/
def pairEmit : List Nat → List Char
  | a :: b :: rest => Char.ofNat (97 + (a + b) % 26) :: pairEmit rest
  | _ => []

/-- Next-token table of the demo model below. -/
def demoNext (ctx : List Nat) : Nat :=
  if ctx = [1] then 5
  else if ctx = [2] then 3
  else 99

/-- Demo request A. -/
def dataA : InputData := ⟨strL "hi", strL "Hat", strL "A felt hat"⟩

/-- Demo request B. -/
def dataB : InputData := ⟨strL "yo", strL "Cap", strL "A wool cap"⟩

/-- Concrete runtime: request A's prompt encodes to `[1]`, any other prompt
to `[2]`; the model deterministically produces one content token (`5` after
`[1]`, `3` after `[2]`) and then the end-of-sequence token `99`. -/
def demoRt : Runtime :=
  ⟨fun s => if s = predictPrompt dataA then .ok [1] else .ok [2],
   fun ctx t => if t = demoNext ctx then 1 else 0,
   100,
   fun _ r => r,
   fun _ => false,
   fun t => t == 99,
   posEmit⟩

/-- Runtime whose tokenizer raises on every input — the spec's simulated
tokenizer failure. -/
def failRt : Runtime :=
  ⟨fun _ => .error (strL "tokenizer failure"),
   fun _ _ => 0, 1, fun _ r => r, fun _ => false, fun t => t == 99, posEmit⟩

/-- Constant random stream. -/
def rng0 : Nat → Nat := fun _ => 0

/-- Runtime equal to `rt` except for the sampling path (the part of the
search that `do_sample=False` switches off). -/
def withSampler (rt : Runtime) (sampler' : List Nat → Nat → Nat) : Runtime :=
  ⟨rt.encode, rt.logits, rt.vocab, sampler', rt.stepFails, rt.isEos, rt.emit⟩

/-- Next-token table of the pair-decoder demo model: after context `[1]` the
model produces `5`, then `5`, then the EOS token `99`. -/
def pairNext (ctx : List Nat) : Nat :=
  if ctx = [1] then 5
  else if ctx = [1, 5] then 5
  else 99

/-- Concrete runtime whose decoder merges token pairs into single
characters: request A's prompt encodes to `[1]` and generation produces
`[5, 5, 99]`. -/
def pairRt : Runtime :=
  ⟨fun s => if s = predictPrompt dataA then .ok [1] else .ok [2],
   fun ctx t => if t = pairNext ctx then 1 else 0,
   100,
   fun _ r => r,
   fun _ => false,
   fun t => t == 99,
   pairEmit⟩

/-- Agent names in the order `create_agents` attempts creations. -/
def provisionNames : List (List Char) := [cartName, fashionName, moderatorName, mainName]

/-- Creation attempts actually made: the fixed order truncated at (and
including) the first name whose creation fails. -/
def firstFailTrunc (env : CloudEnv) : List (List Char) → List (List Char)
  | [] => []
  | n :: ns => if env.createFails n then [n] else n :: firstFailTrunc env ns

/-- Environment in which every cloud call succeeds. -/
def noFailEnv : CloudEnv := ⟨false, fun _ => false, false, fun _ => false⟩

/-- Two stale agents left over from an earlier run. -/
def staleCloud : CloudState :=
  ⟨[⟨0, cartName, [], none⟩, ⟨1, mainName, [0], some (strL "https://old/mcp")⟩], 2⟩

/-- Environment where deleting agent 0 fails and creating the fashion
advisor fails. -/
def flakyEnv : CloudEnv := ⟨false, fun i => i == 0, false, fun n => n == fashionName⟩

/-- Demo inventory URL. -/
def demoUrl : List Char := strL "https://inventory.example.com"

/-! ## General lemmas -/

theorem yieldAll_length (emit : List Nat → List Char) :
    ∀ (ts : List Nat) (st : List Nat), ((yieldAll emit st ts).2).length = ts.length := by
  intro ts
  induction ts with
  | nil => intro st; rfl
  | cons t ts ih => intro st; simp [yieldAll, ih]

theorem genLoop_length (rt : Runtime) (ps : GeneratorParams) (rng : Nat → Nat) :
    ∀ (fuel step : Nat) (ctx : List Nat),
      (genLoop rt ps rng fuel step ctx).length ≤ ps.max_length - ctx.length := by
  intro fuel
  induction fuel with
  | zero => intro step ctx; simp [genLoop]
  | succ n ih =>
    intro step ctx
    rw [genLoop]
    by_cases h1 : ps.max_length ≤ ctx.length
    · simp [h1]
    · simp only [h1, if_false]
      by_cases h2 : rt.stepFails ctx
      · simp [h2]
      · simp only [h2, if_false, Bool.false_eq_true]
        set t := if ps.do_sample then rt.sampler ctx (rng step)
                 else argmaxBelow (rt.logits ctx) rt.vocab with ht
        by_cases h3 : rt.isEos t
        · simp [h3]; omega
        · simp only [h3, if_false, Bool.false_eq_true, List.length_cons]
          have hrec := ih (step + 1) (ctx ++ [t])
          simp at hrec
          omega

/-- The generation loop behaves like the unbounded `while not is_done()`
loop: any fuel at least `max_length - |ctx|` gives the same result, so the
`max_length` fuel used by `runGenerator` is never the binding constraint. -/
theorem genLoop_fuel_irrel (rt : Runtime) (ps : GeneratorParams) (rng : Nat → Nat) :
    ∀ (fuel fuel' step : Nat) (ctx : List Nat),
      ps.max_length - ctx.length ≤ fuel → ps.max_length - ctx.length ≤ fuel' →
      genLoop rt ps rng fuel step ctx = genLoop rt ps rng fuel' step ctx := by
  intro fuel
  induction fuel with
  | zero =>
    intro fuel' step ctx h h'
    have h0 : ps.max_length ≤ ctx.length := by omega
    cases fuel' with
    | zero => rfl
    | succ m => simp [genLoop, h0]
  | succ n ih =>
    intro fuel' step ctx h h'
    cases fuel' with
    | zero =>
      have h0 : ps.max_length ≤ ctx.length := by omega
      simp [genLoop, h0]
    | succ m =>
      rw [genLoop, genLoop]
      by_cases h1 : ps.max_length ≤ ctx.length
      · simp [h1]
      · simp only [h1, if_false]
        by_cases h2 : rt.stepFails ctx
        · simp [h2]
        · simp only [h2, if_false, Bool.false_eq_true]
          set t := if ps.do_sample then rt.sampler ctx (rng step)
                   else argmaxBelow (rt.logits ctx) rt.vocab with ht
          by_cases h3 : rt.isEos t
          · simp [h3]
          · simp only [h3, if_false, Bool.false_eq_true, List.cons.injEq, true_and]
            exact ih m (step + 1) (ctx ++ [t]) (by simp; omega) (by simp; omega)

theorem genLoop_greedy (rt : Runtime) (sampler' : List Nat → Nat → Nat)
    (ps : GeneratorParams) (hps : ps.do_sample = false) :
    ∀ (fuel : Nat) (rng rng' : Nat → Nat) (step step' : Nat) (ctx : List Nat),
      genLoop (withSampler rt sampler') ps rng' fuel step' ctx =
        genLoop rt ps rng fuel step ctx := by
  intro fuel
  induction fuel with
  | zero => intro rng rng' step step' ctx; rfl
  | succ n ih =>
    intro rng rng' step step' ctx
    rw [genLoop, genLoop]
    by_cases h1 : ps.max_length ≤ ctx.length
    · simp [h1]
    · simp only [h1, if_false]
      by_cases h2 : rt.stepFails ctx
      · simp [withSampler, h2]
      · simp only [withSampler, h2, if_false, Bool.false_eq_true, hps]
        by_cases h3 : rt.isEos (argmaxBelow (rt.logits ctx) rt.vocab)
        · simp [h3]
        · simp only [h3, if_false, Bool.false_eq_true, List.cons.injEq, true_and]
          exact ih rng rng' (step + 1) (step' + 1)
            (ctx ++ [argmaxBelow (rt.logits ctx) rt.vocab])

theorem argmaxBelow_le (f : Nat → Int) : ∀ (n j : Nat), j < n → f j ≤ f (argmaxBelow f n) := by
  intro n
  induction n with
  | zero => intro j h; omega
  | succ m ih =>
    intro j hj
    have hstep : f (argmaxBelow f m) ≤ f (argmaxBelow f (m + 1)) := by
      rw [argmaxBelow]
      by_cases hc : f (argmaxBelow f m) < f m
      · simp [hc]; omega
      · simp [hc]
    rcases Nat.lt_or_ge j m with hlt | hge
    · exact le_trans (ih j hlt) hstep
    · have hjm : j = m := by omega
      subst hjm
      rw [argmaxBelow]
      by_cases hc : f (argmaxBelow f j) < f j
      · simp [hc]
      · simp [hc]; omega

theorem emit_mono_append (emit : List Nat → List Char)
    (mono : ∀ (ts : List Nat) (t : Nat), ∃ u, emit (ts ++ [t]) = emit ts ++ u) :
    ∀ (ts ext : List Nat), ∃ v, emit (ts ++ ext) = emit ts ++ v := by
  intro ts ext
  induction ext generalizing ts with
  | nil => exact ⟨[], by simp⟩
  | cons r rs ih =>
    obtain ⟨u, hu⟩ := mono ts r
    obtain ⟨v, hv⟩ := ih (ts ++ [r])
    refine ⟨u ++ v, ?_⟩
    have hx : ts ++ r :: rs = (ts ++ [r]) ++ rs := by simp
    rw [hx, hv, hu, List.append_assoc]

/-- Streaming-decoder contract: when feeding one more token only extends the
emitted text, decoding each token exactly once yields fragments whose
concatenation is exactly the one-pass decode of the whole fed sequence. -/
theorem singleDecodeAll_flatten (emit : List Nat → List Char)
    (mono : ∀ (ts : List Nat) (t : Nat), ∃ u, emit (ts ++ [t]) = emit ts ++ u) :
    ∀ (ts st : List Nat),
      ((singleDecodeAll emit st ts).2).flatten = (emit (st ++ ts)).drop (emit st).length := by
  intro ts
  induction ts with
  | nil => intro st; simp [singleDecodeAll]
  | cons t ts ih =>
    intro st
    have hstep : ((singleDecodeAll emit st (t :: ts)).2) =
        ((emit (st ++ [t])).drop (emit st).length) :: (singleDecodeAll emit (st ++ [t]) ts).2 := by
      simp [singleDecodeAll, streamDecode]
    rw [hstep, List.flatten_cons, ih]
    obtain ⟨u, hu⟩ := mono st t
    obtain ⟨v, hv⟩ := emit_mono_append emit mono (st ++ [t]) ts
    have hassoc : st ++ t :: ts = (st ++ [t]) ++ ts := by simp
    rw [hassoc, hv, hu, List.drop_left, List.drop_left, List.append_assoc, List.drop_left]

/-- From a fresh stream, one decode per token concatenates to the one-pass
decode of the generated sequence: the property the spec requires of the
streaming loop. -/
theorem singleDecodeAll_flatten_nil (emit : List Nat → List Char)
    (hnil : emit [] = [])
    (mono : ∀ (ts : List Nat) (t : Nat), ∃ u, emit (ts ++ [t]) = emit ts ++ u)
    (ts : List Nat) :
    ((singleDecodeAll emit [] ts).2).flatten = emit ts := by
  have h := singleDecodeAll_flatten emit mono ts []
  simpa [hnil] using h

/-- The positional demo decoder satisfies the streaming contract. -/
theorem posEmit_mono : ∀ (ts : List Nat) (t : Nat), ∃ u, posEmit (ts ++ [t]) = posEmit ts ++ u := by
  intro ts t
  refine ⟨[Char.ofNat (97 + (t + ts.length) % 26)], ?_⟩
  simp [posEmit, List.enum_append]

/-- The pair-merging demo decoder satisfies the streaming contract. -/
theorem pairEmit_mono (t : Nat) : ∀ (ts : List Nat), ∃ u, pairEmit (ts ++ [t]) = pairEmit ts ++ u
  | [] => ⟨[], rfl⟩
  | [a] => ⟨[Char.ofNat (97 + (a + t) % 26)], rfl⟩
  | a :: b :: rest => by
    obtain ⟨u, hu⟩ := pairEmit_mono t rest
    refine ⟨u, ?_⟩
    simp only [List.cons_append, pairEmit, List.append_eq, hu]

/-! ## Claim theorems: generation service -/

set_option maxRecDepth 8000 in
/-- Claim C3: prompt construction is a pure, deterministic function of the
three request fields — the prompt is the user-turn concatenation
`user_message ++ " Product: " ++ product_name ++ ". Description: " ++
product_description` wrapped in the fixed three-turn chat template,
identical inputs yield an identical prompt, and the Blue Shirt example
yields exactly the expected prompt string. -/
theorem prompt_construction_pure :
    (∀ data : InputData, predictPrompt data = promptSpec data) ∧
    (∀ d1 d2 : InputData, d1 = d2 → predictPrompt d1 = predictPrompt d2) ∧
    predictPrompt ⟨strL "tell me about this", strL "Blue Shirt", strL "A cotton blue shirt"⟩ =
      strL "<|system|>\nYou are an AI assistant that helps people find concise information about products. Keep your responses brief and focus on key points. Limit the number of product key features to no more than three.<|end|>\n<|user|>\ntell me about this Product: Blue Shirt. Description: A cotton blue shirt <|end|>\n<|assistant|>" :=
  ⟨fun _ => rfl, fun _ _ h => congrArg predictPrompt h, rfl⟩

theorem prompt_construction_pure_witness :
    predictPrompt dataA = predictPrompt dataA :=
  prompt_construction_pure.2.1 dataA dataA rfl

set_option maxRecDepth 100000 in
/-- Claim C1 (code bug): the loop body decodes every generated token TWICE
through the shared stateful stream (`generated_text += tokenizer_stream.decode(new_token)`
and then `yield tokenizer_stream.decode(new_token)`).  Evaluated on a
runtime whose decoder merges token pairs into one character: the request
generates tokens `[5, 5, 99]`, the stream is fed `[5, 5, 5, 5, 99, 99]`,
the yielded fragments concatenate to `"kkq"`, while the one-pass decode of
the final generated sequence (equal to the concatenation a correct
single-decode streaming loop produces) is `"k"`. -/
theorem predict_double_decodes_each_token :
    predict pairRt [] rng0 dataA = (.streaming [['k'], ['k'], ['q']], [5, 5, 5, 5, 99, 99]) ∧
    requestTokens pairRt rng0 dataA = [5, 5, 99] ∧
    pairEmit [5, 5, 99] = ['k'] ∧
    ((singleDecodeAll pairEmit [] [5, 5, 99]).2).flatten = ['k'] ∧
    ([['k'], ['k'], ['q']] : List (List Char)).flatten ≠ pairEmit [5, 5, 99] := by decide

set_option maxRecDepth 100000 in
/-- Claim C2, counterexample: the module-level `tokenizer_stream` is shared
across requests, so the fragment stream for request B differs according to
whether request A was processed before it — the fragments do NOT depend
only on the request's own input. -/
theorem tokenizer_stream_shared_across_requests :
    (runRequests demoRt rng0 [] [dataA, dataB]).1.getD 1 (.httpError 0 []) = .streaming [['i'], ['c']] ∧
    (runRequests demoRt rng0 [] [dataB]).1.getD 0 (.httpError 0 []) = .streaming [['e'], ['y']] ∧
    (runRequests demoRt rng0 [] [dataA, dataB]).1.getD 1 (.httpError 0 []) ≠
      (runRequests demoRt rng0 [] [dataB]).1.getD 0 (.httpError 0 []) := by decide

/-- Claim C2 (amended): the generator itself is constructed fresh inside
`predict` for each request, so the generated token sequence
(`requestTokens`) and hence the number of fragments depend only on the
request's own input; all dependence of the response on other requests goes
through the shared stream state threaded into `yieldAll` — the fragment
CONTENT may leak across requests (see the counterexample), the token
sequence and fragment count cannot. -/
theorem generator_fresh_per_request :
    ∀ (rt : Runtime) (st st' : List Nat) (rng : Nat → Nat) (d : InputData),
      predict rt st rng d =
        (match rt.encode (predictPrompt d) with
         | .error e => (PredictResponse.httpError 500 e, st)
         | .ok _ => (PredictResponse.streaming (yieldAll rt.emit st (requestTokens rt rng d)).2,
                     (yieldAll rt.emit st (requestTokens rt rng d)).1)) ∧
      fragCount (predict rt st rng d).1 = fragCount (predict rt st' rng d).1 := by
  intro rt st st' rng d
  constructor
  · cases h : rt.encode (predictPrompt d) with
    | error e => simp [predict, requestTokens, h]
    | ok toks => simp [predict, requestTokens, h, predictParams]
  · cases h : rt.encode (predictPrompt d) with
    | error e => simp [predict, h, fragCount]
    | ok toks => simp [predict, h, fragCount, yieldAll_length]

/-- Claim C4: a failure raised before any fragment has been streamed (for
example the tokenizer raising in `tokenizer.encode`) makes `predict` return
`HTTPException(status_code=500, detail=str(e))` — rendered by FastAPI as the
JSON body `{"detail": "<error message>"}` — with no stream and the shared
stream state untouched; once encoding has succeeded the response is the 200
streaming response whatever happens later, a mid-generation failure merely
truncating the token list (the stream ends with no error frame). -/
theorem failure_before_streaming_yields_500 :
    ∀ (rt : Runtime) (st : List Nat) (rng : Nat → Nat) (d : InputData) (e : List Char),
      (rt.encode (predictPrompt d) = .error e →
        predict rt st rng d = (.httpError 500 e, st)) ∧
      (∀ toks : List Nat, rt.encode (predictPrompt d) = .ok toks →
        predict rt st rng d =
          (.streaming (yieldAll rt.emit st (runGenerator rt (predictParams toks) rng)).2,
           (yieldAll rt.emit st (runGenerator rt (predictParams toks) rng)).1)) := by
  intro rt st rng d e
  constructor
  · intro h; simp [predict, h]
  · intro toks h; simp [predict, h]

set_option maxRecDepth 100000 in
theorem failure_before_streaming_yields_500_witness :
    predict failRt [] rng0 dataB = (.httpError 500 (strL "tokenizer failure"), []) ∧
    predict demoRt [] rng0 dataB =
      (.streaming (yieldAll demoRt.emit [] (runGenerator demoRt (predictParams [2]) rng0)).2,
       (yieldAll demoRt.emit [] (runGenerator demoRt (predictParams [2]) rng0)).1) :=
  ⟨(failure_before_streaming_yields_500 failRt [] rng0 dataB (strL "tokenizer failure")).1 rfl,
   (failure_before_streaming_yields_500 demoRt [] rng0 dataB (strL "x")).2 [2] rfl⟩

/-- Claim C5: for every completed (streaming) request the number of
streamed fragments equals the number of tokens produced by the generation
loop, and the generated length never exceeds the configured maximum of 300
tokens. -/
theorem fragment_count_eq_tokens_and_capped :
    ∀ (rt : Runtime) (st : List Nat) (rng : Nat → Nat) (d : InputData)
      (fr : List (List Char)) (st' : List Nat),
      predict rt st rng d = (.streaming fr, st') →
      fr.length = (requestTokens rt rng d).length ∧
      (requestTokens rt rng d).length ≤ 300 := by
  intro rt st rng d fr st' h
  cases he : rt.encode (predictPrompt d) with
  | error e => simp [predict, he] at h
  | ok toks =>
    simp [predict, he] at h
    obtain ⟨h1, h2⟩ := h
    have hreq : requestTokens rt rng d = runGenerator rt (predictParams toks) rng := by
      simp [requestTokens, he]
    rw [hreq]
    constructor
    · rw [← h1]
      exact yieldAll_length rt.emit _ st
    · have hb := genLoop_length rt (predictParams toks) rng (predictParams toks).max_length 0
        (predictParams toks).input_ids
      simp [predictParams] at hb
      simp [runGenerator, predictParams]
      omega

set_option maxRecDepth 100000 in
theorem fragment_count_eq_tokens_and_capped_witness :
    (([['e'], ['y']] : List (List Char))).length = (requestTokens demoRt rng0 dataB).length ∧
    (requestTokens demoRt rng0 dataB).length ≤ 300 :=
  fragment_count_eq_tokens_and_capped demoRt [] rng0 dataB [['e'], ['y']] [3, 3, 99, 99] (by decide)

/-- Claim C6: decoding is deterministic greedy search — with
`do_sample=False` (as `predict` configures), the generated token sequence is
unchanged under any replacement of the sampling path and the random stream,
and the greedy selection always picks a token of maximal logit over the
vocabulary. -/
theorem greedy_decoding_deterministic :
    ∀ (rt : Runtime) (rng rng' : Nat → Nat) (sampler' : List Nat → Nat → Nat) (d : InputData),
      requestTokens (withSampler rt sampler') rng' d = requestTokens rt rng d ∧
      (∀ (ctx : List Nat) (j : Nat), j < rt.vocab →
        rt.logits ctx j ≤ rt.logits ctx (argmaxBelow (rt.logits ctx) rt.vocab)) := by
  intro rt rng rng' sampler' d
  constructor
  · rw [requestTokens, requestTokens]
    cases h : rt.encode (predictPrompt d) with
    | error e => simp [withSampler, h]
    | ok toks =>
      have henc : (withSampler rt sampler').encode = rt.encode := rfl
      rw [henc, h]
      exact genLoop_greedy rt sampler' (predictParams toks) rfl
        (predictParams toks).max_length rng rng' 0 0 (predictParams toks).input_ids
  · intro ctx j hj
    exact argmaxBelow_le _ _ _ hj

set_option maxRecDepth 100000 in
theorem greedy_decoding_deterministic_witness :
    requestTokens (withSampler demoRt (fun _ r => r + 7)) (fun n => n * 3) dataB =
      requestTokens demoRt rng0 dataB ∧
    demoRt.logits [2] 7 ≤ demoRt.logits [2] (argmaxBelow (demoRt.logits [2]) demoRt.vocab) :=
  ⟨(greedy_decoding_deterministic demoRt rng0 (fun n => n * 3) (fun _ r => r + 7) dataB).1,
   (greedy_decoding_deterministic demoRt rng0 (fun n => n * 3) (fun _ r => r + 7) dataB).2 [2] 7 (by decide)⟩

set_option maxRecDepth 8000 in
/-- Claim C9: a request body whose three fields are present strings
validates successfully even when a field is the empty string; the request
then proceeds through prompt construction (the empty string substituted
literally into the template) to generation and streaming. -/
theorem empty_fields_validate :
    ∀ (u p d : List Char),
      validateInputData
        [(strL "user_message", Json.jstr u), (strL "product_name", Json.jstr p),
         (strL "product_description", Json.jstr d)] = .ok ⟨u, p, d⟩ ∧
      (∀ (rt : Runtime) (st : List Nat) (rng : Nat → Nat) (toks : List Nat),
        rt.encode (predictPrompt ⟨u, p, d⟩) = .ok toks →
        ∃ fr st', predict rt st rng ⟨u, p, d⟩ = (.streaming fr, st')) ∧
      predictPrompt ⟨u, p, []⟩ = promptSpec ⟨u, p, []⟩ := by
  intro u p d
  refine ⟨rfl, ?_, rfl⟩
  intro rt st rng toks h
  refine ⟨(yieldAll rt.emit st (runGenerator rt (predictParams toks) rng)).2,
          (yieldAll rt.emit st (runGenerator rt (predictParams toks) rng)).1, ?_⟩
  simp [predict, h]

set_option maxRecDepth 100000 in
theorem empty_fields_validate_witness :
    validateInputData
      [(strL "user_message", Json.jstr (strL "tell me about this")),
       (strL "product_name", Json.jstr (strL "Blue Shirt")),
       (strL "product_description", Json.jstr [])] =
        .ok ⟨strL "tell me about this", strL "Blue Shirt", []⟩ ∧
    ∃ fr st', predict demoRt [] rng0 ⟨strL "tell me about this", strL "Blue Shirt", []⟩ =
      (.streaming fr, st') :=
  ⟨(empty_fields_validate (strL "tell me about this") (strL "Blue Shirt") []).1,
   (empty_fields_validate (strL "tell me about this") (strL "Blue Shirt") []).2.1
     demoRt [] rng0 [2] rfl⟩


/-! ## Claim theorems: provisioning -/

theorem cleanupPass_trace (env : CloudEnv) :
    ∀ (listed : List Agent) (s : CloudState),
      (cleanupPass env listed s).1 = listed.map (fun a => Op.deleteAttempt a.id) := by
  intro listed
  induction listed with
  | nil => intro s; rfl
  | cons a rest ih => intro s; simp [cleanupPass, ih]

theorem cleanupPass_nofail_state (env : CloudEnv) (hd : ∀ i, env.deleteFails i = false) :
    ∀ (listed : List Agent) (s : CloudState),
      (cleanupPass env listed s).2 =
        ⟨s.agents.filter (fun x => listed.all (fun b => x.id != b.id)), s.nextId⟩ := by
  intro listed
  induction listed with
  | nil => intro s; simp [cleanupPass]
  | cons a rest ih =>
    intro s
    simp only [cleanupPass, hd a.id, Bool.false_eq_true, if_false]
    rw [ih (deleteAgent s a.id)]
    simp [deleteAgent, List.filter_filter, Bool.and_comm]

theorem cleanupPass_self_empty (env : CloudEnv) (hd : ∀ i, env.deleteFails i = false)
    (s : CloudState) :
    (cleanupPass env s.agents s).2 = ⟨[], s.nextId⟩ := by
  rw [cleanupPass_nofail_state env hd s.agents s]
  congr 1
  rw [List.filter_eq_nil_iff]
  intro a ha
  simp
  exact ⟨a, ha, rfl⟩



/-- Full evaluation of a failure-free run: cleanup empties the service, then
the four creations happen in the fixed order with consecutive fresh ids. -/
theorem create_agents_nofail (env : CloudEnv) (s : CloudState) (url : List Char)
    (hurl : ¬ url = []) (hl : env.listFails = false) (hs : env.swaggerFails = false)
    (hd : ∀ i, env.deleteFails i = false) (hc : ∀ n, env.createFails n = false) :
    create_agents env s url =
      (s.agents.map (fun a => Op.deleteAttempt a.id) ++
        [Op.createAttempt cartName, Op.createAttempt fashionName,
         Op.createAttempt moderatorName, Op.createAttempt mainName],
       .completed
        ⟨[⟨s.nextId, cartName, [], none⟩, ⟨s.nextId + 1, fashionName, [], none⟩,
          ⟨s.nextId + 2, moderatorName, [], none⟩,
          ⟨s.nextId + 3, mainName, [s.nextId, s.nextId + 1, s.nextId + 2],
           some (external_mcp_server_url url)⟩],
         s.nextId + 4⟩
        ⟨s.nextId + 3, s.nextId, s.nextId + 1, s.nextId + 2⟩) := by
  have hclean := cleanupPass_self_empty env hd s
  have htr := cleanupPass_trace env s.agents s
  simp [create_agents, hurl, hl, hs, hclean, htr, tryCreate, hc, createAgent]


/-- Claim C7: a failure-free provisioning run deletes every existing agent
and then creates exactly four agents in the fixed order cart manager →
fashion advisor → content moderator → orchestrator, the orchestrator's
connected-agent tools referencing the three specialist ids; running the
routine again from the resulting state again leaves exactly four agents,
never eight. -/
theorem provisioning_idempotent_by_recreation :
    ∀ (env : CloudEnv) (s : CloudState) (url : List Char),
      ¬ url = [] → env.listFails = false → env.swaggerFails = false →
      (∀ i, env.deleteFails i = false) → (∀ n, env.createFails n = false) →
      ∃ (st : CloudState) (ids : AgentIds),
        (create_agents env s url).2 = .completed st ids ∧
        st.agents.map Agent.name = [cartName, fashionName, moderatorName, mainName] ∧
        st.agents.length = 4 ∧
        st.agents.getLast?.map Agent.connectedIds =
          some [ids.cart_manager, ids.fashion_advisor, ids.content_moderator] ∧
        ∃ (st2 : CloudState) (ids2 : AgentIds),
          (create_agents env st url).2 = .completed st2 ids2 ∧ st2.agents.length = 4 := by
  intro env s url hurl hl hs hd hc
  have h1 := create_agents_nofail env s url hurl hl hs hd hc
  rw [h1]
  refine ⟨_, _, rfl, rfl, rfl, rfl, ?_⟩
  have h2 := create_agents_nofail env
    ⟨[⟨s.nextId, cartName, [], none⟩, ⟨s.nextId + 1, fashionName, [], none⟩,
      ⟨s.nextId + 2, moderatorName, [], none⟩,
      ⟨s.nextId + 3, mainName, [s.nextId, s.nextId + 1, s.nextId + 2],
       some (external_mcp_server_url url)⟩], s.nextId + 4⟩
    url hurl hl hs hd hc
  rw [h2]
  exact ⟨_, _, rfl, rfl⟩

theorem provisioning_idempotent_by_recreation_witness :
    ∃ (st : CloudState) (ids : AgentIds),
      (create_agents noFailEnv staleCloud demoUrl).2 = .completed st ids ∧
      st.agents.map Agent.name = [cartName, fashionName, moderatorName, mainName] ∧
      st.agents.length = 4 ∧
      st.agents.getLast?.map Agent.connectedIds =
        some [ids.cart_manager, ids.fashion_advisor, ids.content_moderator] ∧
      ∃ (st2 : CloudState) (ids2 : AgentIds),
        (create_agents noFailEnv st demoUrl).2 = .completed st2 ids2 ∧ st2.agents.length = 4 :=
  provisioning_idempotent_by_recreation noFailEnv staleCloud demoUrl
    (by decide) rfl rfl (fun _ => rfl) (fun _ => rfl)

theorem firstFailTrunc_sublist (env : CloudEnv) :
    ∀ ns : List (List Char), (firstFailTrunc env ns).Sublist ns := by
  intro ns
  induction ns with
  | nil => simp [firstFailTrunc]
  | cons n ns ih =>
    rw [firstFailTrunc]
    by_cases h : env.createFails n
    · simp [h]
    · simp only [h, Bool.false_eq_true, if_false]
      exact ih.cons₂ n

/-- Claim C8: the operation trace of a provisioning run is exactly one
deletion attempt per listed agent (deletion failures do not abort the
cleanup pass) followed by creation attempts in the fixed order truncated at
the first failing creation (which aborts the remaining provisioning and
reports failure); no operation is ever attempted twice (no automatic
retries). -/
theorem provisioning_failure_policy :
    ∀ (env : CloudEnv) (s : CloudState) (url : List Char),
      ¬ url = [] → env.listFails = false → env.swaggerFails = false →
      ((create_agents env s url).1 =
        s.agents.map (fun a => Op.deleteAttempt a.id) ++
          (firstFailTrunc env provisionNames).map Op.createAttempt) ∧
      ((env.createFails cartName || env.createFails fashionName ||
        env.createFails moderatorName || env.createFails mainName) = true →
        ∃ st', (create_agents env s url).2 = .failed st') ∧
      ((s.agents.map Agent.id).Nodup → (create_agents env s url).1.Nodup) := by
  intro env s url hurl hl hs
  have htr := cleanupPass_trace env s.agents s
  have htrace : (create_agents env s url).1 =
      s.agents.map (fun a => Op.deleteAttempt a.id) ++
        (firstFailTrunc env provisionNames).map Op.createAttempt := by
    by_cases hc1 : env.createFails cartName <;>
    by_cases hc2 : env.createFails fashionName <;>
    by_cases hc3 : env.createFails moderatorName <;>
    by_cases hc4 : env.createFails mainName <;>
      simp [create_agents, hurl, hl, hs, tryCreate, firstFailTrunc, provisionNames,
        htr, hc1, hc2, hc3, hc4, createAgent, List.append_assoc]
  refine ⟨htrace, ?_, ?_⟩
  · intro hany
    by_cases hc1 : env.createFails cartName <;>
    by_cases hc2 : env.createFails fashionName <;>
    by_cases hc3 : env.createFails moderatorName <;>
    by_cases hc4 : env.createFails mainName <;>
    first
      | (simp [create_agents, hurl, hl, hs, tryCreate, hc1, hc2, hc3, hc4, createAgent]
         simp [hc1, hc2, hc3, hc4] at hany)
      | simp [create_agents, hurl, hl, hs, tryCreate, hc1, hc2, hc3, hc4, createAgent]
  · intro hids
    rw [htrace]
    rw [List.nodup_append]
    refine ⟨?_, ?_, ?_⟩
    · have hdell : s.agents.map (fun a => Op.deleteAttempt a.id) =
          (s.agents.map Agent.id).map Op.deleteAttempt := by
        simp [List.map_map]
      rw [hdell]
      exact hids.map (fun a b h => by injection h)
    · refine List.Nodup.map (fun a b h => by injection h) ?_
      exact (firstFailTrunc_sublist env provisionNames).nodup (by decide)
    · rw [List.disjoint_left]
      intro x hx hy
      simp [List.mem_map] at hx hy
      obtain ⟨a, _, ha⟩ := hx
      obtain ⟨b, _, hb⟩ := hy
      rw [← ha] at hb
      exact Op.noConfusion hb

theorem provisioning_failure_policy_witness :
    ((create_agents flakyEnv staleCloud demoUrl).1 =
      staleCloud.agents.map (fun a => Op.deleteAttempt a.id) ++
        (firstFailTrunc flakyEnv provisionNames).map Op.createAttempt) ∧
    (∃ st', (create_agents flakyEnv staleCloud demoUrl).2 = .failed st') ∧
    (create_agents flakyEnv staleCloud demoUrl).1.Nodup := by
  have h := provisioning_failure_policy flakyEnv staleCloud demoUrl (by decide) rfl rfl
  exact ⟨h.1, h.2.1 (by decide), h.2.2 (by decide)⟩


/-! ## Claim theorems: MCP URL derivation -/

theorem startsWith_append (p s : List Char) : startsWith p (p ++ s) = true := by
  induction p with
  | nil => rfl
  | cons c cs ih => simp [startsWith, ih]

theorem startsWith_exists {p s : List Char} (h : startsWith p s = true) :
    ∃ w, s = p ++ w := by
  induction p generalizing s with
  | nil => exact ⟨s, rfl⟩
  | cons c cs ih =>
    cases s with
    | nil => simp [startsWith] at h
    | cons x xs =>
      simp [startsWith] at h
      obtain ⟨h1, h2⟩ := h
      obtain ⟨w, hw⟩ := ih h2
      exact ⟨w, by simp [h1, hw]⟩

theorem endsWithL_append (s pat : List Char) : endsWithL (s ++ pat) pat = true := by
  rw [endsWithL, List.reverse_append]
  exact startsWith_append pat.reverse s.reverse

theorem endsWithL_exists {s pat : List Char} (h : endsWithL s pat = true) :
    ∃ w, s = w ++ pat := by
  obtain ⟨w, hw⟩ := startsWith_exists h
  refine ⟨w.reverse, ?_⟩
  have h2 := congrArg List.reverse hw
  simpa [List.reverse_append] using h2

theorem rstripSlash_append_ne (x : List Char) (c : Char) (hc : ¬ c = '/') :
    rstripSlash (x ++ [c]) = x ++ [c] := by
  simp [rstripSlash, List.reverse_append, List.dropWhile_cons, hc]

theorem rstripSlash_mcp (y : List Char) : rstripSlash (y ++ mcpSuffix) = y ++ mcpSuffix := by
  have h : y ++ mcpSuffix = (y ++ ['/', 'm', 'c']) ++ ['p'] := by
    simp [mcpSuffix, strL]
  rw [h, rstripSlash_append_ne _ _ (by decide)]

set_option maxRecDepth 8000 in
/-- Claim C10, counterexample: an input ending in `/mcp` followed by
trailing slashes is in the claim's exception case (its stripped form ends
in `/mcp`) but is NOT returned unchanged — the code returns the stripped
form, which differs from the input. -/
theorem mcp_url_not_unchanged_with_trailing_slashes :
    endsWithL (rstripSlash (strL "https://inv.example.com/mcp//")) mcpSuffix = true ∧
    external_mcp_server_url (strL "https://inv.example.com/mcp//") =
      strL "https://inv.example.com/mcp" ∧
    external_mcp_server_url (strL "https://inv.example.com/mcp//") ≠
      strL "https://inv.example.com/mcp//" := by decide

/-- Claim C10 (amended): for every non-empty inventory URL the derived MCP
server URL is the input with trailing `'/'` characters stripped and `/mcp`
appended, except that when the STRIPPED input already ends in `/mcp` the
stripped input is returned with nothing appended — in particular an input
literally ending in `/mcp` is returned unchanged; the derivation is
idempotent. -/
theorem mcp_url_derivation_stripped :
    ∀ url : List Char, ¬ url = [] →
      (endsWithL (rstripSlash url) mcpSuffix = true →
        external_mcp_server_url url = rstripSlash url) ∧
      (endsWithL (rstripSlash url) mcpSuffix = false →
        external_mcp_server_url url = rstripSlash url ++ mcpSuffix) ∧
      (endsWithL url mcpSuffix = true → external_mcp_server_url url = url) ∧
      external_mcp_server_url (external_mcp_server_url url) = external_mcp_server_url url := by
  intro url hurl
  refine ⟨?_, ?_, ?_, ?_⟩
  · intro h
    simp [external_mcp_server_url, h]
  · intro h
    simp [external_mcp_server_url, h]
  · intro h
    obtain ⟨w, hw⟩ := endsWithL_exists h
    subst hw
    simp [external_mcp_server_url, rstripSlash_mcp, endsWithL_append]
  · by_cases h : endsWithL (rstripSlash url) mcpSuffix
    · obtain ⟨w, hw⟩ := endsWithL_exists h
      have hfst : external_mcp_server_url url = rstripSlash url := by
        simp [external_mcp_server_url, h]
      rw [hfst, hw]
      simp [external_mcp_server_url, rstripSlash_mcp, endsWithL_append]
    · have hfst : external_mcp_server_url url = rstripSlash url ++ mcpSuffix := by
        simp [external_mcp_server_url, h]
      rw [hfst]
      simp [external_mcp_server_url, rstripSlash_mcp, endsWithL_append]

set_option maxRecDepth 8000 in
theorem mcp_url_derivation_stripped_witness :
    external_mcp_server_url (strL "https://inv.example.com/mcp/") =
      rstripSlash (strL "https://inv.example.com/mcp/") ∧
    external_mcp_server_url demoUrl = rstripSlash demoUrl ++ mcpSuffix ∧
    external_mcp_server_url (strL "https://inv.example.com/mcp") =
      strL "https://inv.example.com/mcp" ∧
    external_mcp_server_url (external_mcp_server_url demoUrl) =
      external_mcp_server_url demoUrl :=
  ⟨(mcp_url_derivation_stripped (strL "https://inv.example.com/mcp/") (by decide)).1 (by decide),
   (mcp_url_derivation_stripped demoUrl (by decide)).2.1 (by decide),
   (mcp_url_derivation_stripped (strL "https://inv.example.com/mcp") (by decide)).2.2.1 (by decide),
   (mcp_url_derivation_stripped demoUrl (by decide)).2.2.2⟩


end Eshop
